import Mathlib

/-!
Verification of the camino-network-runner node-lifecycle core.

This file gives a shallow embedding, in Lean, of the orchestration core of
the repository: the health readiness coordinator (`waitNode`), the local
network manager (`AddNode`, `RemoveNode`, `Stop` of `localNetwork`), and the
control-plane server (`stop`, `waitForHealthy` of the `server` package),
together with theorems settling the specification's claims about them.

Conventions of the embedding:
- Machine effects (file creation, process spawn, signal delivery) are driven
  by an explicit `Env` of success/failure outcomes, and each operation
  returns the list of effect `Event`s it performed, in order.
- Go maps are modelled as association lists with first-match lookup; Go map
  iteration order, which is unspecified, is an explicit parameter where it
  matters (`StopGo`).
- Wall-clock time in the poll loop is modelled in whole seconds; the
  duration of the queries of each poll round is an explicit parameter.
-/

namespace CNR

/-! ### Health readiness coordinator: `waitNode` (local/network.go)

`waitNode` polls `info.IsBootstrapped` for the three sub-chains "P", "C",
"X" in a loop, bounded by a 1-minute timeout, sleeping 10 s between rounds
(the sleep is skipped when the "P" or "C" check fails, because the Go code
`continue`s straight back to the loop condition in those branches).

A query is modelled as an `Option Bool`: `none` is a query error, and
`some b` a successful reply `b`.  `poll i ch` is the reply the node gives
for chain `ch` in round `i`; `qdur i` is the wall-clock duration, in
seconds, of round `i`'s queries. -/

inductive Chain where
  | P
  | C
  | X
deriving DecidableEq, Repr

/-- A bootstrap check passes exactly when the query succeeded and returned
`true`; an error (`none`) counts as not bootstrapped, mirroring
`if bootstrapped, err := info.IsBootstrapped(ch); err != nil || !bootstrapped`. -/
def checkOK : Option Bool → Bool
  | some true => true
  | _ => false

/-- One poll round reports the node up exactly when the "P", "C" and "X"
checks all pass (the Go code short-circuits, but the resulting Boolean is
the conjunction of the three checks). -/
def roundUp (r : Chain → Option Bool) : Bool :=
  checkOK (r .P) && checkOK (r .C) && checkOK (r .X)

/-- The 10-second sleep at the bottom of the loop body is reached only when
the "P" and "C" checks passed and the "X" check failed: a "P" or "C"
failure executes `continue`, skipping the sleep. -/
def roundSleeps (r : Chain → Option Bool) : Bool :=
  checkOK (r .P) && checkOK (r .C) && !checkOK (r .X)

def nodeTimeout : Nat := 60

def pollTime : Nat := 10

/-- The poll loop of `waitNode`, with the loop condition
`time.Since(t0) <= timeout` checked before each round, fuelled for
termination.  `i` is the next round index and `elapsed` the seconds since
`t0`. -/
def waitNodeAux (poll : Nat → Chain → Option Bool) (qdur : Nat → Nat) :
    Nat → Nat → Nat → Bool
  | 0, _, _ => false
  | fuel + 1, i, elapsed =>
    if elapsed ≤ nodeTimeout then
      if roundUp (poll i) then true
      else
        waitNodeAux poll qdur fuel (i + 1)
          (elapsed + qdur i + (if roundSleeps (poll i) then pollTime else 0))
    else false

/-- `waitNode` runs the poll loop from time 0.  When every round lasts at
least one second, `nodeTimeout + 2` rounds of fuel are never exhausted
(shown by `waitNodeAux_spec`). -/
def waitNode (poll : Nat → Chain → Option Bool) (qdur : Nat → Nat) : Bool :=
  waitNodeAux poll qdur (nodeTimeout + 2) 0 0

/-- The wall-clock second at which round `i` begins: each round adds its
query duration, plus the 10-second sleep when the round slept. -/
def roundStart (poll : Nat → Chain → Option Bool) (qdur : Nat → Nat) : Nat → Nat
  | 0 => 0
  | i + 1 =>
    roundStart poll qdur i + qdur i +
      (if roundSleeps (poll i) then pollTime else 0)

/-! ### Local network manager (local/network.go)

The manager owns the node-name → node-handle mapping (`nodes`, a Go map
modelled as an association list with first-match lookup), the monotonic
internal id counter (`nextIntNodeID`), the shared flags/genesis/cchain
configuration, and the node-kind → binary map. -/

/-- A JSON value, as far as the config-flag machinery inspects one:
`AddNode` only ever casts flag values to `string`, `float64` (for the HTTP
port; JSON numbers are represented here as `Nat`) or `bool`. -/
inductive JVal where
  | str (s : String)
  | num (n : Nat)
  | bool (b : Bool)
  | other
deriving DecidableEq, Repr

/-- A JSON object: key/value pairs with first-match lookup. -/
abbrev JObj : Type := List (String × JVal)

def JObj.get (o : JObj) (k : String) : Option JVal :=
  (o.find? (fun p => p.1 == k)).map (fun p => p.2)

/-- `configFlags[k].(string)`: present and of string type, else the cast
fails. -/
def JObj.getString (o : JObj) (k : String) : Option String :=
  match o.get k with
  | some (.str s) => some s
  | _ => none

/-- `configFlags[k].(float64)`: present and numeric, else the cast fails. -/
def JObj.getNum (o : JObj) (k : String) : Option Nat :=
  match o.get k with
  | some (.num n) => some n
  | _ => none

/-- `usesEphemeralCert, ok := configFlags[k].(bool); if !ok { false }`: a
missing key or non-bool value defaults to `false`. -/
def JObj.getBoolD (o : JObj) (k : String) : Bool :=
  match o.get k with
  | some (.bool b) => b
  | _ => false

/-- Copying the core config flags and then unmarshalling the node's own
flags over them: a key present in `overlay` wins over `core`. -/
def JObj.merge (core overlay : JObj) : JObj :=
  overlay ++ core

/- The avalanchego flag keys `AddNode` reads. -/

def chainConfigDirKey : String := "chain-config-dir"

def genesisConfigFileKey : String := "genesis"

def stakingEphemeralCertEnabledKey : String := "staking-ephemeral-cert-enabled"

def stakingCertPathKey : String := "staking-tls-cert-file"

def stakingKeyPathKey : String := "staking-tls-key-file"

def publicIPKey : String := "public-ip"

def httpPortKey : String := "http-port"

def configFileKey : String := "config-file"

/-- The `ConfigFlags` string of a node config, as seen through
`json.Unmarshal`: empty, non-empty but unparseable, or a parsed object. -/
inductive FlagsSrc where
  | empty
  | malformed
  | obj (kvs : JObj)
deriving DecidableEq

/-- `node.Config`: name (`""` = unspecified), node type (`nil` or a numeric
node kind), the config-flags JSON string, and the staking credentials
(`""` = empty field). -/
structure NodeConfig where
  name : String
  type? : Option Nat
  configFlags : FlagsSrc
  cert : String
  privateKey : String
deriving DecidableEq

/-- The per-node runtime record the manager stores in its map (process and
client handles are identified by the node id here). -/
structure LocalNode where
  id : String
deriving DecidableEq, Repr

/-- `localNetwork`: the manager state. -/
structure LocalNetwork where
  nextIntNodeID : Nat
  nodes : List (String × LocalNode)
  coreConfigFlags : JObj
  genesis : String
  cChainConfig : String
  binMap : List (Nat × String)
deriving DecidableEq

def lookupNode (nodes : List (String × LocalNode)) (k : String) : Option LocalNode :=
  (nodes.find? (fun p => p.1 == k)).map (fun p => p.2)

/-- Go map assignment `net.nodes[k] = v`: replaces any entry under `k`. -/
def insertNode (nodes : List (String × LocalNode)) (k : String) (v : LocalNode) :
    List (String × LocalNode) :=
  nodes.filter (fun p => !(p.1 == k)) ++ [(k, v)]

/-- Go map `delete(net.nodes, k)`. -/
def eraseNode (nodes : List (String × LocalNode)) (k : String) :
    List (String × LocalNode) :=
  nodes.filter (fun p => !(p.1 == k))

def lookupBin (binMap : List (Nat × String)) (k : Nat) : Option String :=
  (binMap.find? (fun p => p.1 == k)).map (fun p => p.2)

/-- An observable machine effect, in the order performed.  `createFile` and
`spawn` are recorded when the write / `cmd.Start()` succeeds; `sigterm`
records that the termination signal was issued to the named node's
process. -/
inductive Event where
  | createFile (path : String)
  | closeEthClient (nodeName : String)
  | sigterm (nodeName : String)
  | spawn (bin : String) (args : List String)
deriving DecidableEq, Repr

/-- The outcomes the operating system gives to each effect the manager
attempts. -/
structure Env where
  createFileOK : String → Bool
  startOK : String → Bool
  signalOK : String → Bool

/-- The errors the manager returns, one constructor per `fmt.Errorf` site
reached by the embedded operations. -/
inductive NetErr where
  | repeatedName (name : String)
  | typeEmpty (nodeID : String)
  | configFlagsEmpty (nodeID : String)
  | unmarshalFlags (nodeID : String)
  | missingFlag (nodeID key : String)
  | createFileErr (path : String)
  | certEmpty (nodeID : String)
  | privateKeyEmpty (nodeID : String)
  | binMapMissing (k : Nat)
  | startFailed (bin : String)
  | notFound (name : String)
  | signalFailed (name : String)
deriving DecidableEq, Repr

/-- The staking cert/key section of `AddNode` (run unless the node is
configured for an ephemeral cert): validates the `Cert` field, writes the
cert file, validates the `PrivateKey` field, writes the key file.  Returns
the file events performed so far alongside the outcome. -/
def stakingFiles (env : Env) (cfg : NodeConfig) (nodeID : String) (flags : JObj) :
    Except NetErr Unit × List Event :=
  if flags.getBoolD stakingEphemeralCertEnabledKey then (.ok (), [])
  else if cfg.cert == "" then (.error (.certEmpty nodeID), [])
  else
    match flags.getString stakingCertPathKey with
    | none => (.error (.missingFlag nodeID stakingCertPathKey), [])
    | some certFname =>
      if !env.createFileOK certFname then (.error (.createFileErr certFname), [])
      else if cfg.privateKey == "" then
        (.error (.privateKeyEmpty nodeID), [.createFile certFname])
      else
        match flags.getString stakingKeyPathKey with
        | none => (.error (.missingFlag nodeID stakingKeyPathKey), [.createFile certFname])
        | some keyFname =>
          if !env.createFileOK keyFname then
            (.error (.createFileErr keyFname), [.createFile certFname])
          else (.ok (), [.createFile certFname, .createFile keyFname])

/-- The api/spawn tail of `AddNode`: public-ip and http-port flag casts
(used to build the API client), binary lookup by node kind, `cmd.Start()`,
and — only after everything succeeded — recording the handle in the map.
`evs` are the file events already performed; `configFilePath` feeds the one
`--config-file=` argument. -/
def addNodeSpawn (net : LocalNetwork) (env : Env) (nodeID : String) (ty : Nat)
    (flags : JObj) (configFilePath : String) (evs : List Event) :
    Except NetErr LocalNode × LocalNetwork × List Event :=
  match flags.getString publicIPKey with
  | none => (.error (.missingFlag nodeID publicIPKey), net, evs)
  | some _nodeIP =>
    match flags.getNum httpPortKey with
    | none => (.error (.missingFlag nodeID httpPortKey), net, evs)
    | some _nodePort =>
      match lookupBin net.binMap ty with
      | none => (.error (.binMapMissing ty), net, evs)
      | some binPath =>
        if !env.startOK binPath then (.error (.startFailed binPath), net, evs)
        else
          (.ok ⟨nodeID⟩,
            { net with nodes := insertNode net.nodes nodeID ⟨nodeID⟩ },
            evs ++ [.spawn binPath ["--" ++ configFileKey ++ "=" ++ configFilePath]])

/-- The file-materialization section of `AddNode`, once the merged flags
and the chain config dir are in hand: main config file, chain-specific
config file, genesis file, staking files, then the spawn tail. -/
def addNodeFiles (net : LocalNetwork) (env : Env) (cfg : NodeConfig) (nodeID : String)
    (ty : Nat) (flags : JObj) (configDir : String) :
    Except NetErr LocalNode × LocalNetwork × List Event :=
  if !env.createFileOK (configDir ++ "/config.json") then
    (.error (.createFileErr (configDir ++ "/config.json")), net, [])
  else if !env.createFileOK (configDir ++ "/C/config.json") then
    (.error (.createFileErr (configDir ++ "/C/config.json")), net,
      [.createFile (configDir ++ "/config.json")])
  else
    match flags.getString genesisConfigFileKey with
    | none =>
      (.error (.missingFlag nodeID genesisConfigFileKey), net,
        [.createFile (configDir ++ "/config.json"),
          .createFile (configDir ++ "/C/config.json")])
    | some genesisFname =>
      if !env.createFileOK genesisFname then
        (.error (.createFileErr genesisFname), net,
          [.createFile (configDir ++ "/config.json"),
            .createFile (configDir ++ "/C/config.json")])
      else
        match stakingFiles env cfg nodeID flags with
        | (.error e, sevs) =>
          (.error e, net,
            [.createFile (configDir ++ "/config.json"),
              .createFile (configDir ++ "/C/config.json"),
              .createFile genesisFname] ++ sevs)
        | (.ok _, sevs) =>
          addNodeSpawn net env nodeID ty flags (configDir ++ "/config.json")
            ([.createFile (configDir ++ "/config.json"),
              .createFile (configDir ++ "/C/config.json"),
              .createFile genesisFname] ++ sevs)

/-- The body of `AddNode` after the node id has been resolved: type and
config-flags validation, flag merging, then file materialization and
spawn. -/
def addNodeBody (net : LocalNetwork) (env : Env) (cfg : NodeConfig) (nodeID : String) :
    Except NetErr LocalNode × LocalNetwork × List Event :=
  match cfg.type? with
  | none => (.error (.typeEmpty nodeID), net, [])
  | some ty =>
    match cfg.configFlags with
    | .empty => (.error (.configFlagsEmpty nodeID), net, [])
    | .malformed => (.error (.unmarshalFlags nodeID), net, [])
    | .obj kvs =>
      match (JObj.merge net.coreConfigFlags kvs).getString chainConfigDirKey with
      | none => (.error (.missingFlag nodeID chainConfigDirKey), net, [])
      | some configDir =>
        addNodeFiles net env cfg nodeID ty (JObj.merge net.coreConfigFlags kvs) configDir

/-- `AddNode`: draws the next internal id (the counter is incremented on
every call, before any validation), uses the config's name instead when one
is given — rejecting it if it already names a node — and then runs the
body. -/
def AddNode (net : LocalNetwork) (env : Env) (cfg : NodeConfig) :
    Except NetErr LocalNode × LocalNetwork × List Event :=
  if cfg.name == "" then
    addNodeBody { net with nextIntNodeID := net.nextIntNodeID + 1 } env cfg
      (Nat.repr net.nextIntNodeID)
  else if (lookupNode net.nodes cfg.name).isSome then
    (.error (.repeatedName cfg.name),
      { net with nextIntNodeID := net.nextIntNodeID + 1 }, [])
  else
    addNodeBody { net with nextIntNodeID := net.nextIntNodeID + 1 } env cfg cfg.name

/-- `RemoveNode`: `NotFound` when the name is absent; otherwise the name is
deleted from the map, the persistent C-chain eth websocket client is
closed, and only then is SIGTERM issued to the process (the call does not
wait for process exit). -/
def RemoveNode (net : LocalNetwork) (env : Env) (name : String) :
    Except NetErr Unit × LocalNetwork × List Event :=
  match lookupNode net.nodes name with
  | none => (.error (.notFound name), net, [])
  | some _ =>
    let net' := { net with nodes := eraseNode net.nodes name }
    let evs : List Event := [.closeEthClient name, .sigterm name]
    if env.signalOK name then (.ok (), net', evs)
    else (.error (.signalFailed name), net', evs)

/-- The loop of `Stop`, over an explicit iteration order of the node names
(Go map iteration order is unspecified): each name is removed in turn, and
a failing removal returns its error at once, abandoning the rest of the
order. -/
def StopGo (net : LocalNetwork) (env : Env) :
    List String → Except NetErr Unit × LocalNetwork × List Event
  | [] => (.ok (), net, [])
  | name :: rest =>
    match RemoveNode net env name with
    | (.error e, net', evs) => (.error e, net', evs)
    | (.ok _, net', evs) =>
      let out := StopGo net' env rest
      (out.1, out.2.1, evs ++ out.2.2)

/-- `Stop`: iterates the current node names (here: in association-list
order, one linearization of the unspecified Go map order). -/
def Stop (net : LocalNetwork) (env : Env) :
    Except NetErr Unit × LocalNetwork × List Event :=
  StopGo net env (net.nodes.map (fun p => p.1))

/-- The manager state `NewNetwork` builds before folding `AddNode` over the
configured nodes: an empty map and the id counter at 1. -/
def NewNetworkState (coreFlags : JObj) (genesis cchain : String)
    (binMap : List (Nat × String)) : LocalNetwork :=
  { nextIntNodeID := 1
    nodes := []
    coreConfigFlags := coreFlags
    genesis := genesis
    cChainConfig := cchain
    binMap := binMap }

/-! ### Control-plane server (server/network.go)

`localNetwork.stop` is guarded by a `sync.Once` (`stopOnceDone`); its body
closes the stop channel, delegates to the network's `Stop`, and waits for
the background start goroutine (`<-lc.donec`).  `waitForHealthy` is a
`select` over the stop channel, the context deadline, and the health
result channel. -/

structure CtrlServer where
  stopOnceDone : Bool
  stopcClosed : Bool
deriving DecidableEq, Repr

/-- The teardown steps of `stop`'s once-guarded body, in program order:
`close(lc.stopc)`, `lc.nw.Stop(...)`, `<-lc.donec`. -/
inductive ServerEvent where
  | closeStopc
  | networkStop
  | waitDone
deriving DecidableEq, Repr

/-- `stop`: the `sync.Once` guard runs the teardown body only when it has
never run before; otherwise the call does nothing. -/
def serverStop (s : CtrlServer) : CtrlServer × List ServerEvent :=
  if s.stopOnceDone then (s, [])
  else
    ({ stopOnceDone := true, stopcClosed := true },
      [.closeStopc, .networkStop, .waitDone])

/-- `n` successive `stop` calls, with the cumulative teardown trace. -/
def serverStopMany (s : CtrlServer) : Nat → CtrlServer × List ServerEvent
  | 0 => (s, [])
  | n + 1 =>
    ((serverStopMany (serverStop s).1 n).1,
      (serverStop s).2 ++ (serverStopMany (serverStop s).1 n).2)

/-- The first signal to arrive during `waitForHealthy`'s `select`: the stop
channel, the context deadline, or the health-result channel (`none` =
healthy, `some e` = health error). -/
inductive FirstSignal where
  | stopRequested
  | ctxDone
  | healthResult (err : Option String)
deriving DecidableEq, Repr

inductive WaitOutcome where
  | aborted
  | deadlineExceeded
  | healthErr (e : String)
  | nodesErr (e : String)
  | healthyDone
deriving DecidableEq, Repr

/-- `waitForHealthy`, as a (total, hence never-blocking) function of the
first signal to arrive: `<-lc.stopc` returns `errAborted`, `<-ctx.Done()`
returns the deadline error, an error on the health channel is returned,
and on a healthy result the node catalog is read (`GetAllNodes`, whose
outcome is the `getAllNodes` parameter) before returning success. -/
def waitForHealthy (sig : FirstSignal) (getAllNodes : Except String Unit) :
    WaitOutcome :=
  match sig with
  | .stopRequested => .aborted
  | .ctxDone => .deadlineExceeded
  | .healthResult (some e) => .healthErr e
  | .healthResult none =>
    match getAllNodes with
    | .error e => .nodesErr e
    | .ok _ => .healthyDone

/-! ### Operation sequences against one manager -/

/-- A client-visible mutating operation on the manager. -/
inductive Op where
  | add (cfg : NodeConfig)
  | remove (name : String)

/-- Run a sequence of operations, collecting each `AddNode` result in
order. -/
def runOps (env : Env) : LocalNetwork → List Op → LocalNetwork × List (Except NetErr LocalNode)
  | net, [] => (net, [])
  | net, .add cfg :: rest =>
    ((runOps env (AddNode net env cfg).2.1 rest).1,
      (AddNode net env cfg).1 :: (runOps env (AddNode net env cfg).2.1 rest).2)
  | net, .remove name :: rest => runOps env (RemoveNode net env name).2.1 rest

/-- Every operation in the list is either an `AddNode` of a config with no
explicit name, or a `RemoveNode`. -/
def NamelessAddsOnly (ops : List Op) : Prop :=
  ∀ op ∈ ops, match op with
    | Op.add cfg => cfg.name = ""
    | Op.remove _ => True

/-! ### Decimal rendering of the internal id counter

`fmt.Sprint` of the `uint64` counter is its decimal numeral, which is
`Nat.repr` in Lean.  To reason about distinctness of generated names we
need that `Nat.repr` is injective, proved here by exhibiting a left
inverse that parses the digit list back. -/

def digitVal (c : Char) : Nat := c.toNat - 48

def decodeDec (l : List Char) (acc : Nat) : Nat :=
  l.foldl (fun a c => a * 10 + digitVal c) acc

/-- The number of decimal digits of `n` (1 for `n < 10`). -/
def numDigits (n : Nat) : Nat :=
  if _h : n < 10 then 1
  else numDigits (n / 10) + 1
termination_by n
decreasing_by exact Nat.div_lt_self (by omega) (by omega)

/-! ### Concrete instances used by witnesses and counterexamples -/

def allOKEnv : Env :=
  { createFileOK := fun _ => true, startOK := fun _ => true, signalOK := fun _ => true }

def wFlags : JObj :=
  [(chainConfigDirKey, .str "/data/n"),
    (genesisConfigFileKey, .str "/data/n/genesis.json"),
    (stakingCertPathKey, .str "/data/n/cert.pem"),
    (stakingKeyPathKey, .str "/data/n/key.pem"),
    (publicIPKey, .str "127.0.0.1"),
    (httpPortKey, .num 9650)]

/-- A complete, nameless node config. -/
def wCfg : NodeConfig :=
  { name := "", type? := some 0, configFlags := .obj wFlags,
    cert := "CERT", privateKey := "KEY" }

/-- A config with the `Type` field nil (fails validation). -/
def wCfgNoType : NodeConfig :=
  { name := "", type? := none, configFlags := .obj wFlags,
    cert := "CERT", privateKey := "KEY" }

/-- A config requesting the already-used name "a". -/
def wCfgNamed : NodeConfig :=
  { name := "a", type? := some 0, configFlags := .obj wFlags,
    cert := "CERT", privateKey := "KEY" }

/-- A fresh manager with one registered binary kind. -/
def wNet : LocalNetwork := NewNetworkState [] "GEN" "CCHAIN" [(0, "caminogo")]

/-- A manager already holding a node named "a". -/
def wNetA : LocalNetwork :=
  { nextIntNodeID := 2
    nodes := [("a", ⟨"a"⟩)]
    coreConfigFlags := []
    genesis := "GEN"
    cChainConfig := "CCHAIN"
    binMap := [(0, "caminogo")] }

/-- A manager holding two nodes, "n1" then "n2" in iteration order. -/
def cxNet : LocalNetwork :=
  { nextIntNodeID := 3
    nodes := [("n1", ⟨"n1"⟩), ("n2", ⟨"n2"⟩)]
    coreConfigFlags := []
    genesis := "GEN"
    cChainConfig := "CCHAIN"
    binMap := [(0, "caminogo")] }

/-- An environment in which signalling node "n1" fails and everything else
succeeds. -/
def cxEnv : Env :=
  { createFileOK := fun _ => true, startOK := fun _ => true,
    signalOK := fun s => s == "n2" }

/-! ### Theorems: health readiness coordinator -/

theorem roundStart_succ_ge (poll : Nat → Chain → Option Bool) (qdur : Nat → Nat)
    (h1 : ∀ i, 1 ≤ qdur i) (i : Nat) :
    roundStart poll qdur i + 1 ≤ roundStart poll qdur (i + 1) := by
  have := h1 i
  simp only [roundStart]
  omega

theorem roundStart_mono (poll : Nat → Chain → Option Bool) (qdur : Nat → Nat)
    (h1 : ∀ i, 1 ≤ qdur i) :
    ∀ {i j : Nat}, i ≤ j → roundStart poll qdur i ≤ roundStart poll qdur j := by
  intro i j hij
  induction j with
  | zero => simp [Nat.le_zero.mp hij]
  | succ j ih =>
    rcases Nat.lt_or_ge i (j + 1) with h | h
    · have := roundStart_succ_ge poll qdur h1 j
      have := ih (Nat.lt_succ_iff.mp h)
      omega
    · have := Nat.le_antisymm hij h
      simp [this]

theorem waitNodeAux_spec (poll : Nat → Chain → Option Bool) (qdur : Nat → Nat)
    (h1 : ∀ i, 1 ≤ qdur i) :
    ∀ fuel i, nodeTimeout + 1 ≤ roundStart poll qdur i + fuel →
      (waitNodeAux poll qdur fuel i (roundStart poll qdur i) = true ↔
        ∃ j, i ≤ j ∧ roundStart poll qdur j ≤ nodeTimeout ∧
          roundUp (poll j) = true) := by
  intro fuel
  induction fuel with
  | zero =>
    intro i hfuel
    simp only [waitNodeAux]
    constructor
    · intro h
      exact absurd h (by simp)
    · rintro ⟨j, hij, hle, _⟩
      have := roundStart_mono poll qdur h1 hij
      omega
  | succ fuel ih =>
    intro i hfuel
    by_cases hto : roundStart poll qdur i ≤ nodeTimeout
    · by_cases hup : roundUp (poll i) = true
      · simp only [waitNodeAux, hto, if_pos, hup, if_true]
        exact ⟨fun _ => ⟨i, le_refl i, hto, hup⟩, fun _ => trivial⟩
      · have hrec :
            waitNodeAux poll qdur (fuel + 1) i (roundStart poll qdur i) =
              waitNodeAux poll qdur fuel (i + 1) (roundStart poll qdur (i + 1)) := by
          simp only [waitNodeAux, hto, if_pos, hup, if_false]
          rfl
        rw [hrec]
        have hstep := roundStart_succ_ge poll qdur h1 i
        rw [ih (i + 1) (by omega)]
        constructor
        · rintro ⟨j, hij, hle, hu⟩
          exact ⟨j, Nat.le_of_succ_le hij, hle, hu⟩
        · rintro ⟨j, hij, hle, hu⟩
          rcases Nat.eq_or_lt_of_le hij with h | h
          · exact absurd hu (by rw [← h]; simpa using hup)
          · exact ⟨j, h, hle, hu⟩
    · simp only [waitNodeAux, hto, if_neg, if_false]
      constructor
      · intro h
        exact absurd h (by simp)
      · rintro ⟨j, hij, hle, _⟩
        have := roundStart_mono poll qdur h1 hij
        omega

/-- Claim C1: for every client (modelled by its per-round replies `poll` and
per-round query durations `qdur`, each round taking at least one second),
`waitNode` returns `true` if and only if some poll round that begins before
the 1-minute timeout has elapsed reports bootstrapped for all three
sub-chains "P", "C" and "X" in that same round.  A query error (`none`)
counts as not bootstrapped in that round only (`checkOK`), the round is
retried, and no error is ever surfaced: the result type is `Bool`. -/
theorem waitNode_true_iff (poll : Nat → Chain → Option Bool) (qdur : Nat → Nat)
    (h1 : ∀ i, 1 ≤ qdur i) :
    waitNode poll qdur = true ↔
      ∃ i, roundStart poll qdur i ≤ nodeTimeout ∧ roundUp (poll i) = true := by
  have h := waitNodeAux_spec poll qdur h1 (nodeTimeout + 2) 0
    (by simp [roundStart, nodeTimeout])
  simp only [roundStart] at h
  rw [waitNode, h]
  constructor
  · rintro ⟨j, _, hle, hu⟩
    exact ⟨j, hle, hu⟩
  · rintro ⟨j, hle, hu⟩
    exact ⟨j, Nat.zero_le j, hle, hu⟩

/-- Witness for `waitNode_true_iff`: a node whose every query replies
bootstrapped, with one-second rounds, makes `waitNode` return `true`. -/
theorem waitNode_true_iff_witness :
    waitNode (fun _ _ => some true) (fun _ => 1) = true :=
  (waitNode_true_iff (fun _ _ => some true) (fun _ => 1) (fun _ => le_refl 1)).mpr
    ⟨0, by simp [roundStart, nodeTimeout], by simp [roundUp, checkOK]⟩

/-! ### Structural lemmas about `AddNode` -/

theorem addNodeSpawn_error_net (net : LocalNetwork) (env : Env) (nodeID : String)
    (ty : Nat) (flags : JObj) (cfp : String) (evs0 : List Event) (e : NetErr)
    (net' : LocalNetwork) (evs : List Event)
    (h : addNodeSpawn net env nodeID ty flags cfp evs0 = (.error e, net', evs)) :
    net' = net := by
  unfold addNodeSpawn at h
  repeat' split at h
  all_goals simp_all

theorem addNodeSpawn_ok (net : LocalNetwork) (env : Env) (nodeID : String)
    (ty : Nat) (flags : JObj) (cfp : String) (evs0 : List Event) (nd : LocalNode)
    (net' : LocalNetwork) (evs : List Event)
    (h : addNodeSpawn net env nodeID ty flags cfp evs0 = (.ok nd, net', evs)) :
    nd.id = nodeID ∧ net'.nodes = insertNode net.nodes nodeID nd ∧
      net'.nextIntNodeID = net.nextIntNodeID ∧
      ∃ binPath, evs = evs0 ++ [.spawn binPath ["--" ++ configFileKey ++ "=" ++ cfp]] := by
  unfold addNodeSpawn at h
  repeat' split at h
  all_goals try simp_all
  obtain ⟨h1, h2, h3⟩ := h
  subst h1
  subst h2
  exact ⟨rfl, rfl, rfl, _, h3.symm⟩

theorem stakingFiles_ok (env : Env) (cfg : NodeConfig) (nodeID : String)
    (flags : JObj) (sevs : List Event)
    (h : stakingFiles env cfg nodeID flags = (.ok (), sevs)) :
    (flags.getBoolD stakingEphemeralCertEnabledKey = true ∧ sevs = []) ∨
      (flags.getBoolD stakingEphemeralCertEnabledKey = false ∧
        ∃ cp kp, flags.getString stakingCertPathKey = some cp ∧
          flags.getString stakingKeyPathKey = some kp ∧
          sevs = [.createFile cp, .createFile kp]) := by
  unfold stakingFiles at h
  repeat' split at h
  all_goals simp_all

theorem addNodeFiles_error_net (net : LocalNetwork) (env : Env) (cfg : NodeConfig)
    (nodeID : String) (ty : Nat) (flags : JObj) (dir : String) (e : NetErr)
    (net' : LocalNetwork) (evs : List Event)
    (h : addNodeFiles net env cfg nodeID ty flags dir = (.error e, net', evs)) :
    net' = net := by
  unfold addNodeFiles at h
  repeat' split at h
  all_goals try exact addNodeSpawn_error_net _ _ _ _ _ _ _ _ _ _ h
  all_goals simp_all

theorem addNodeFiles_ok (net : LocalNetwork) (env : Env) (cfg : NodeConfig)
    (nodeID : String) (ty : Nat) (flags : JObj) (dir : String) (nd : LocalNode)
    (net' : LocalNetwork) (evs : List Event)
    (h : addNodeFiles net env cfg nodeID ty flags dir = (.ok nd, net', evs)) :
    nd.id = nodeID ∧ net'.nodes = insertNode net.nodes nodeID nd ∧
      net'.nextIntNodeID = net.nextIntNodeID ∧
      ∃ gname sevs binPath,
        flags.getString genesisConfigFileKey = some gname ∧
        stakingFiles env cfg nodeID flags = (.ok (), sevs) ∧
        evs = [.createFile (dir ++ "/config.json"),
            .createFile (dir ++ "/C/config.json"), .createFile gname] ++ sevs ++
          [.spawn binPath ["--" ++ configFileKey ++ "=" ++ (dir ++ "/config.json")]] := by
  unfold addNodeFiles at h
  repeat' split at h
  all_goals try ((rename_i hf1 hf2 x2 gname hgen hc3 xp u sevs hstak); rcases addNodeSpawn_ok _ _ _ _ _ _ _ _ _ _ h with ⟨h1, h2, h3, binPath, h4⟩; exact ⟨h1, h2, h3, gname, sevs, binPath, hgen, hstak, h4⟩)
  all_goals simp_all

theorem addNodeBody_error_net (net : LocalNetwork) (env : Env) (cfg : NodeConfig)
    (nodeID : String) (e : NetErr) (net' : LocalNetwork) (evs : List Event)
    (h : addNodeBody net env cfg nodeID = (.error e, net', evs)) : net' = net := by
  unfold addNodeBody at h
  repeat' split at h
  all_goals try exact addNodeFiles_error_net _ _ _ _ _ _ _ _ _ _ h
  all_goals simp_all

theorem addNodeBody_ok (net : LocalNetwork) (env : Env) (cfg : NodeConfig)
    (nodeID : String) (nd : LocalNode) (net' : LocalNetwork) (evs : List Event)
    (h : addNodeBody net env cfg nodeID = (.ok nd, net', evs)) :
    nd.id = nodeID ∧ net'.nodes = insertNode net.nodes nodeID nd ∧
      net'.nextIntNodeID = net.nextIntNodeID := by
  unfold addNodeBody at h
  repeat' split at h
  any_goals simp_all
  rcases addNodeFiles_ok _ _ _ _ _ _ _ _ _ _ h with ⟨h1, h2, h3, h4⟩
  exact ⟨h1, h2, h3⟩

/-! ### Theorems: the node mapping under `AddNode` and `RemoveNode` -/

theorem lookupNode_erase (nodes : List (String × LocalNode)) (k : String) :
    lookupNode (eraseNode nodes k) k = none := by
  induction nodes with
  | nil => rfl
  | cons p rest ih =>
    by_cases h : p.1 == k
    · simp only [eraseNode, List.filter_cons, h] at ih ⊢
      simp only [Bool.not_true, cond_false]
      exact ih
    · simp [eraseNode, lookupNode, List.filter_cons, List.find?_cons, h] at ih ⊢

/-- Claim C3: adding a node whose config carries a name equal to the name
of a node already in the mapping fails with the name-conflict
(`repeatedName`) error, and the node-name → handle mapping is identical
before and after the failed call.  (A config "whose name equals an
existing node's name" carries a name, so `cfg.name ≠ ""`; the empty string
encodes an unspecified name in the Go struct.) -/
theorem AddNode_nameConflict (net : LocalNetwork) (env : Env) (cfg : NodeConfig)
    (nd : LocalNode) (hname : cfg.name ≠ "")
    (hmem : lookupNode net.nodes cfg.name = some nd) :
    (AddNode net env cfg).1 = .error (.repeatedName cfg.name) ∧
      (AddNode net env cfg).2.1.nodes = net.nodes := by
  unfold AddNode
  simp [hname, hmem]

/-- Witness for `AddNode_nameConflict`: adding a second node named "a". -/
theorem AddNode_nameConflict_witness :
    (AddNode wNetA allOKEnv wCfgNamed).1 = .error (.repeatedName "a") ∧
      (AddNode wNetA allOKEnv wCfgNamed).2.1.nodes = wNetA.nodes :=
  AddNode_nameConflict wNetA allOKEnv wCfgNamed ⟨"a"⟩ (by decide) rfl

/-- Claim C10: whenever `AddNode` returns an error — from the name check,
validation, a missing flag, a failed file write, or a failed spawn — the
node mapping is unchanged (the handle is recorded only as the very last
step); the id counter increment, by contrast, is not rolled back. -/
theorem AddNode_error_preserves_nodes (net : LocalNetwork) (env : Env)
    (cfg : NodeConfig) (e : NetErr) (net' : LocalNetwork) (evs : List Event)
    (h : AddNode net env cfg = (.error e, net', evs)) :
    net'.nodes = net.nodes ∧ net'.nextIntNodeID = net.nextIntNodeID + 1 := by
  unfold AddNode at h
  split at h
  · have hn := addNodeBody_error_net _ _ _ _ _ _ _ h
    subst hn
    exact ⟨rfl, rfl⟩
  · split at h
    · simp only [Prod.mk.injEq] at h
      obtain ⟨_, h2, _⟩ := h
      subst h2
      exact ⟨rfl, rfl⟩
    · have hn := addNodeBody_error_net _ _ _ _ _ _ _ h
      subst hn
      exact ⟨rfl, rfl⟩

/-- Witness for `AddNode_error_preserves_nodes`: a config whose `Type`
field is nil fails validation and leaves the (empty) mapping unchanged
while the counter advances. -/
theorem AddNode_error_preserves_nodes_witness :
    (AddNode wNet allOKEnv wCfgNoType).2.1.nodes = wNet.nodes ∧
      (AddNode wNet allOKEnv wCfgNoType).2.1.nextIntNodeID = wNet.nextIntNodeID + 1 :=
  AddNode_error_preserves_nodes wNet allOKEnv wCfgNoType (.typeEmpty "1") _ [] rfl

/-- Claim C7: `RemoveNode name` fails with the not-found error exactly when
`name` is absent from the mapping; and for a node present in the mapping
(as any node added once is), a first `RemoveNode` succeeds (the
termination signal being deliverable) while an immediately repeated
`RemoveNode` of the same name fails with not-found. -/
theorem RemoveNode_notFound_spec (net : LocalNetwork) (env : Env) (name : String) :
    ((RemoveNode net env name).1 = .error (.notFound name) ↔
      lookupNode net.nodes name = none) ∧
    (∀ nd, lookupNode net.nodes name = some nd → env.signalOK name = true →
      (RemoveNode net env name).1 = .ok () ∧
      (RemoveNode (RemoveNode net env name).2.1 env name).1 =
        .error (.notFound name)) := by
  have habsent : ∀ m : LocalNetwork, lookupNode m.nodes name = none →
      (RemoveNode m env name).1 = .error (.notFound name) := by
    intro m hm
    unfold RemoveNode
    rw [hm]
  constructor
  · unfold RemoveNode
    cases hlk : lookupNode net.nodes name with
    | none => simp
    | some nd => cases hsig : env.signalOK name <;> simp [hsig]
  · intro nd hlk hsig
    have h2 : (RemoveNode net env name).2.1.nodes = eraseNode net.nodes name := by
      unfold RemoveNode
      rw [hlk]
      cases env.signalOK name <;> simp
    refine ⟨?_, habsent _ (by rw [h2]; exact lookupNode_erase net.nodes name)⟩
    unfold RemoveNode
    rw [hlk]
    simp [hsig]

/-- Witness for `RemoveNode_notFound_spec`: the manager holding node "a":
removing "b" is not-found, removing "a" succeeds, removing "a" again is
not-found. -/
theorem RemoveNode_notFound_spec_witness :
    (((RemoveNode wNetA allOKEnv "b").1 = .error (.notFound "b") ↔
        lookupNode wNetA.nodes "b" = none) ∧
      (∀ nd, lookupNode wNetA.nodes "b" = some nd → allOKEnv.signalOK "b" = true →
        (RemoveNode wNetA allOKEnv "b").1 = .ok () ∧
        (RemoveNode (RemoveNode wNetA allOKEnv "b").2.1 allOKEnv "b").1 =
          .error (.notFound "b"))) ∧
    ((RemoveNode wNetA allOKEnv "a").1 = .ok () ∧
      (RemoveNode (RemoveNode wNetA allOKEnv "a").2.1 allOKEnv "a").1 =
        .error (.notFound "a")) :=
  ⟨RemoveNode_notFound_spec wNetA allOKEnv "b",
    (RemoveNode_notFound_spec wNetA allOKEnv "a").2 ⟨"a"⟩ rfl rfl⟩

/-- Claim C8: on every path of `RemoveNode` that reaches the signalling
step (that is, whenever the name is present), the persistent C-chain eth
client connection is closed strictly before the termination signal is
sent — the event trace is literally close-then-signal — and the name is
deleted from the mapping without any wait on process exit (the deletion is
visible in the returned state on both the success and the failed-signal
path). -/
theorem RemoveNode_close_before_signal (net : LocalNetwork) (env : Env)
    (name : String) (nd : LocalNode)
    (h : lookupNode net.nodes name = some nd) :
    (RemoveNode net env name).2.2 =
      [Event.closeEthClient name, Event.sigterm name] ∧
    (RemoveNode net env name).2.1.nodes = eraseNode net.nodes name := by
  unfold RemoveNode
  rw [h]
  cases env.signalOK name <;> simp

/-- Witness for `RemoveNode_close_before_signal`: removing node "a". -/
theorem RemoveNode_close_before_signal_witness :
    (RemoveNode wNetA allOKEnv "a").2.2 =
      [Event.closeEthClient "a", Event.sigterm "a"] ∧
    (RemoveNode wNetA allOKEnv "a").2.1.nodes = eraseNode wNetA.nodes "a" :=
  RemoveNode_close_before_signal wNetA allOKEnv "a" ⟨"a"⟩ rfl

theorem addNodeBody_ok_trace (net : LocalNetwork) (env : Env) (cfg : NodeConfig)
    (nodeID : String) (nd : LocalNode) (net' : LocalNetwork) (evs : List Event)
    (h : addNodeBody net env cfg nodeID = (.ok nd, net', evs)) :
    ∃ flags dir gname sevs binPath,
      JObj.getString flags genesisConfigFileKey = some gname ∧
      stakingFiles env cfg nodeID flags = (.ok (), sevs) ∧
      evs = Event.createFile (dir ++ "/config.json") ::
        Event.createFile (dir ++ "/C/config.json") :: Event.createFile gname ::
        (sevs ++ [Event.spawn binPath
          ["--" ++ configFileKey ++ "=" ++ (dir ++ "/config.json")]]) := by
  unfold addNodeBody at h
  split at h
  · exact absurd h (by simp)
  · split at h
    · exact absurd h (by simp)
    · exact absurd h (by simp)
    · split at h
      · exact absurd h (by simp)
      · rename_i x1 ty hty x2 kvs hkvs x3 dir hdir
        rcases addNodeFiles_ok _ _ _ _ _ _ _ _ _ _ h with
          ⟨h1, h2, h3, gname, sevs, binPath, hgen, hstak, hevs⟩
        have hevs2 : evs = Event.createFile (dir ++ "/config.json") ::
            Event.createFile (dir ++ "/C/config.json") :: Event.createFile gname ::
            (sevs ++ [Event.spawn binPath
              ["--" ++ configFileKey ++ "=" ++ (dir ++ "/config.json")]]) := by
          simpa using hevs
        exact ⟨JObj.merge net.coreConfigFlags kvs, dir, gname, sevs, binPath,
          hgen, hstak, hevs2⟩

/-- Claim C9: a successful `AddNode` materializes, in this order, the main
config file, the chain-specific config file, the genesis file, and — when
the node's merged flags do not enable the ephemeral staking cert — the
staking cert and key files, all strictly before the single `spawn`, and
the binary is spawned with exactly one argument,
`--config-file=<generated config path>`. -/
theorem AddNode_ok_trace (net : LocalNetwork) (env : Env) (cfg : NodeConfig)
    (nd : LocalNode) (net' : LocalNetwork) (evs : List Event)
    (h : AddNode net env cfg = (.ok nd, net', evs)) :
    ∃ flags dir gname stak binPath,
      JObj.getString flags genesisConfigFileKey = some gname ∧
      (JObj.getBoolD flags stakingEphemeralCertEnabledKey = true ∧
          stak = ([] : List Event) ∨
        JObj.getBoolD flags stakingEphemeralCertEnabledKey = false ∧
          ∃ cp kp,
            JObj.getString flags stakingCertPathKey = some cp ∧
            JObj.getString flags stakingKeyPathKey = some kp ∧
            stak = [Event.createFile cp, Event.createFile kp]) ∧
      evs = Event.createFile (dir ++ "/config.json") ::
        Event.createFile (dir ++ "/C/config.json") :: Event.createFile gname ::
        (stak ++ [Event.spawn binPath
          ["--" ++ configFileKey ++ "=" ++ (dir ++ "/config.json")]]) := by
  have main : ∀ nodeID (m : LocalNetwork),
      addNodeBody m env cfg nodeID = (.ok nd, net', evs) →
      ∃ flags dir gname stak binPath,
        JObj.getString flags genesisConfigFileKey = some gname ∧
        (JObj.getBoolD flags stakingEphemeralCertEnabledKey = true ∧
            stak = ([] : List Event) ∨
          JObj.getBoolD flags stakingEphemeralCertEnabledKey = false ∧
            ∃ cp kp,
              JObj.getString flags stakingCertPathKey = some cp ∧
              JObj.getString flags stakingKeyPathKey = some kp ∧
              stak = [Event.createFile cp, Event.createFile kp]) ∧
        evs = Event.createFile (dir ++ "/config.json") ::
          Event.createFile (dir ++ "/C/config.json") :: Event.createFile gname ::
          (stak ++ [Event.spawn binPath
            ["--" ++ configFileKey ++ "=" ++ (dir ++ "/config.json")]]) := by
    intro nodeID m hb
    rcases addNodeBody_ok_trace _ _ _ _ _ _ _ hb with
      ⟨flags, dir, gname, sevs, binPath, hgen, hstak, hevs⟩
    rcases stakingFiles_ok _ _ _ _ _ hstak with ⟨heph, hsevs⟩ | ⟨heph, cp, kp, hcp, hkp, hsevs⟩
    · subst hsevs
      exact ⟨flags, dir, gname, [], binPath, hgen, Or.inl ⟨heph, rfl⟩, hevs⟩
    · subst hsevs
      exact ⟨flags, dir, gname, _, binPath, hgen,
        Or.inr ⟨heph, cp, kp, hcp, hkp, rfl⟩, hevs⟩
  unfold AddNode at h
  split at h
  · exact main _ _ h
  · split at h
    · simp at h
    · exact main _ _ h

/-- Witness for `AddNode_ok_trace`: the concrete successful add of `wCfg`
to the fresh manager `wNet`, whose trace is the five file writes followed
by the one-argument spawn. -/
theorem AddNode_ok_trace_witness :
    ∃ flags dir gname stak binPath,
      JObj.getString flags genesisConfigFileKey = some gname ∧
      (JObj.getBoolD flags stakingEphemeralCertEnabledKey = true ∧
          stak = ([] : List Event) ∨
        JObj.getBoolD flags stakingEphemeralCertEnabledKey = false ∧
          ∃ cp kp,
            JObj.getString flags stakingCertPathKey = some cp ∧
            JObj.getString flags stakingKeyPathKey = some kp ∧
            stak = [Event.createFile cp, Event.createFile kp]) ∧
      (AddNode wNet allOKEnv wCfg).2.2 =
        Event.createFile (dir ++ "/config.json") ::
        Event.createFile (dir ++ "/C/config.json") :: Event.createFile gname ::
        (stak ++ [Event.spawn binPath
          ["--" ++ configFileKey ++ "=" ++ (dir ++ "/config.json")]]) :=
  AddNode_ok_trace wNet allOKEnv wCfg ⟨"1"⟩ (AddNode wNet allOKEnv wCfg).2.1
    (AddNode wNet allOKEnv wCfg).2.2 rfl

/-! ### Theorems: `Stop` is fail-fast, not best-effort -/

/-- Counterexample to claim C4: with nodes "n1", "n2" (in iteration order)
and signal delivery failing for "n1", `Stop` returns the first error but
never attempts "n2": the effect trace contains only "n1"'s teardown events
and "n2" is still in the mapping afterwards — teardown is fail-fast, not
best-effort. -/
theorem Stop_counterexample :
    (Stop cxNet cxEnv).1 = .error (.signalFailed "n1") ∧
    (Stop cxNet cxEnv).2.2 = [Event.closeEthClient "n1", Event.sigterm "n1"] ∧
    lookupNode (Stop cxNet cxEnv).2.1.nodes "n2" = some ⟨"n2"⟩ :=
  ⟨rfl, rfl, rfl⟩

/-- Amended claim C4: `Stop` iterates the current node names calling
`RemoveNode` on each, but aborts on the first error: when the removals of
a prefix `pre` succeed and the removal of `name` then fails, the whole
`Stop` loop returns that first error at once, and the names after the
failing one are never attempted (the result — outcome, state and effect
trace — does not depend on them at all). -/
theorem StopGo_failfast (env : Env) (pre : List String) :
    ∀ (net net1 : LocalNetwork) (e1 : List Event) (name : String)
      (post : List String) (e : NetErr),
      StopGo net env pre = (.ok (), net1, e1) →
      (RemoveNode net1 env name).1 = .error e →
      StopGo net env (pre ++ name :: post) =
        (.error e, (RemoveNode net1 env name).2.1,
          e1 ++ (RemoveNode net1 env name).2.2) := by
  induction pre with
  | nil =>
    intro net net1 e1 name post e hpre herr
    simp only [StopGo, Prod.mk.injEq] at hpre
    obtain ⟨-, h2, h3⟩ := hpre
    subst h2
    subst h3
    simp only [List.nil_append, StopGo]
    rcases hrm : RemoveNode net env name with ⟨r, net2, evs2⟩
    rw [hrm] at herr
    simp only at herr
    subst herr
    simp
  | cons m pre ih =>
    intro net net1 e1 name post e hpre herr
    simp only [StopGo] at hpre
    rcases hrm : RemoveNode net env m with ⟨r, net2, evs2⟩
    rw [hrm] at hpre
    cases r with
    | error e2 => simp only at hpre; cases hpre
    | ok u =>
      simp only at hpre
      rcases hrest : StopGo net2 env pre with ⟨rr, netr, evr⟩
      rw [hrest] at hpre
      simp only [Prod.mk.injEq] at hpre
      obtain ⟨hr1, hr2, hr3⟩ := hpre
      have hok : StopGo net2 env pre = (.ok (), net1, evr) := by
        rw [hrest, hr1, hr2]
      have hmain := ih net2 net1 evr name post e hok herr
      show StopGo net env (m :: pre ++ name :: post) = _
      simp only [List.cons_append, StopGo]
      rw [hrm]
      simp only [List.append_eq]
      rw [hmain]
      simp [← hr3]

/-- Witness for `StopGo_failfast`: from `cxNet`, an empty successful
prefix, the failing node "n1", and the never-reached suffix ["n2"]. -/
theorem StopGo_failfast_witness :
    StopGo cxNet cxEnv ([] ++ "n1" :: ["n2"]) =
      (.error (.signalFailed "n1"), (RemoveNode cxNet cxEnv "n1").2.1,
        [] ++ (RemoveNode cxNet cxEnv "n1").2.2) :=
  StopGo_failfast cxEnv [] cxNet cxNet [] "n1" ["n2"] (.signalFailed "n1") rfl rfl

/-! ### Theorems: control-plane server -/

theorem serverStop_done (t : CtrlServer) (ht : t.stopOnceDone = true) :
    serverStop t = (t, []) := by
  simp [serverStop, ht]

theorem serverStopMany_done (t : CtrlServer) (ht : t.stopOnceDone = true) :
    ∀ n, serverStopMany t n = (t, []) := by
  intro n
  induction n with
  | zero => rfl
  | succ n ih => simp [serverStopMany, serverStop_done t ht, ih]

theorem serverStop_sets_done (s : CtrlServer) :
    (serverStop s).1.stopOnceDone = true := by
  unfold serverStop
  cases hd : s.stopOnceDone <;> simp [hd]

/-- Claim C5: only the first `stop` call performs teardown — on a server
that has never stopped, it closes the stop-requested signal, delegates to
the network's `Stop`, and waits for the start goroutine, in that order and
exactly once — and any further `stop` calls perform no teardown and leave
the state unchanged: `n` consecutive `stop` calls (`n ≥ 1`) are
observationally equal (final state and cumulative teardown trace) to a
single call. -/
theorem serverStop_idempotent (s : CtrlServer) (n : Nat) (hn : 1 ≤ n) :
    (s.stopOnceDone = false →
      (serverStop s).2 =
        [ServerEvent.closeStopc, ServerEvent.networkStop, ServerEvent.waitDone] ∧
      (serverStop s).1.stopcClosed = true) ∧
    serverStop (serverStop s).1 = ((serverStop s).1, []) ∧
    serverStopMany s n = serverStopMany s 1 := by
  refine ⟨?_, serverStop_done _ (serverStop_sets_done s), ?_⟩
  · intro hd
    simp [serverStop, hd]
  · obtain ⟨m, rfl⟩ : ∃ m, n = m + 1 := ⟨n - 1, by omega⟩
    simp [serverStopMany, serverStopMany_done _ (serverStop_sets_done s)]

/-- Witness for `serverStop_idempotent`: a fresh server, stopped twice. -/
theorem serverStop_idempotent_witness :
    (CtrlServer.stopOnceDone ⟨false, false⟩ = false →
      (serverStop ⟨false, false⟩).2 =
        [ServerEvent.closeStopc, ServerEvent.networkStop, ServerEvent.waitDone] ∧
      (serverStop ⟨false, false⟩).1.stopcClosed = true) ∧
    serverStop (serverStop ⟨false, false⟩).1 = ((serverStop ⟨false, false⟩).1, []) ∧
    serverStopMany ⟨false, false⟩ 2 = serverStopMany ⟨false, false⟩ 1 :=
  serverStop_idempotent ⟨false, false⟩ 2 (by decide)

/-- Claim C6: `waitForHealthy` is a total function of whichever of the
three competing signals fires first (so it never blocks forever and the
first signal determines the outcome): if the stop-requested signal fires
before the health result and before the deadline, the outcome is
`aborted`; and a success outcome happens only when a healthy result
arrived first — never after stop was requested. -/
theorem waitForHealthy_spec (gn : Except String Unit) :
    waitForHealthy FirstSignal.stopRequested gn = .aborted ∧
    waitForHealthy FirstSignal.ctxDone gn = .deadlineExceeded ∧
    (∀ sig, waitForHealthy sig gn = .healthyDone → sig = .healthResult none) := by
  refine ⟨rfl, rfl, ?_⟩
  intro sig h
  cases sig with
  | stopRequested => cases h
  | ctxDone => cases h
  | healthResult r =>
    cases r with
    | none => rfl
    | some e => cases h

/-- Witness for `waitForHealthy_spec`: a node catalog read that
succeeds. -/
theorem waitForHealthy_spec_witness :
    waitForHealthy FirstSignal.stopRequested (.ok ()) = .aborted ∧
    waitForHealthy FirstSignal.ctxDone (.ok ()) = .deadlineExceeded ∧
    (∀ sig, waitForHealthy sig (.ok ()) = .healthyDone →
      sig = .healthResult none) :=
  waitForHealthy_spec (.ok ())

/-! ### Theorems: injectivity of the decimal rendering -/

theorem digitVal_digitChar : ∀ m < 10, digitVal (Nat.digitChar m) = m := by
  decide

theorem numDigits_small {n : Nat} (h : n < 10) : numDigits n = 1 := by
  unfold numDigits
  simp [h]

theorem numDigits_large {n : Nat} (h : ¬ n < 10) : numDigits n = numDigits (n / 10) + 1 := by
  conv_lhs => unfold numDigits
  simp [h]

theorem toDigitsCore_foldl :
    ∀ fuel n ds acc, n < fuel →
      List.foldl (fun a c => a * 10 + digitVal c) acc (Nat.toDigitsCore 10 fuel n ds) =
        List.foldl (fun a c => a * 10 + digitVal c) (acc * 10 ^ numDigits n + n) ds := by
  intro fuel
  induction fuel with
  | zero => intro n ds acc h; omega
  | succ fuel ih =>
    intro n ds acc h
    simp only [Nat.toDigitsCore]
    by_cases hd : n / 10 = 0
    · have hn : n < 10 := by omega
      simp only [hd, if_true]
      simp only [List.foldl_cons]
      rw [digitVal_digitChar (n % 10) (Nat.mod_lt n (by omega)),
        numDigits_small hn, Nat.mod_eq_of_lt hn, pow_one]
    · have hn : ¬ n < 10 := by
        intro hcon
        exact hd (Nat.div_eq_of_lt hcon)
      have hds : n / 10 < n := Nat.div_lt_self (by omega) (by omega)
      have hlt : n / 10 < fuel := by omega
      simp only [hd, if_false]
      rw [ih (n / 10) (Nat.digitChar (n % 10) :: ds) acc hlt]
      simp only [List.foldl_cons]
      rw [digitVal_digitChar (n % 10) (Nat.mod_lt n (by omega)),
        numDigits_large hn, pow_succ, ← mul_assoc]
      have hinit : (acc * 10 ^ numDigits (n / 10) + n / 10) * 10 + n % 10
          = acc * 10 ^ numDigits (n / 10) * 10 + n := by
        have hdm : 10 * (n / 10) + n % 10 = n := Nat.div_add_mod n 10
        generalize acc * 10 ^ numDigits (n / 10) = Y
        omega
      rw [hinit]

theorem decodeDec_toDigits (n : Nat) : decodeDec (Nat.toDigits 10 n) 0 = n := by
  unfold Nat.toDigits decodeDec
  rw [toDigitsCore_foldl (n + 1) n [] 0 (Nat.lt_succ_self n)]
  simp

theorem natRepr_injective : Function.Injective Nat.repr := by
  intro a b hab
  have hd : Nat.toDigits 10 a = Nat.toDigits 10 b := congrArg String.data hab
  rw [← decodeDec_toDigits a, ← decodeDec_toDigits b, hd]

/-! ### Theorems: generated node names -/

theorem addNodeBody_counter (net : LocalNetwork) (env : Env) (cfg : NodeConfig)
    (nodeID : String) :
    (addNodeBody net env cfg nodeID).2.1.nextIntNodeID = net.nextIntNodeID := by
  rcases h : addNodeBody net env cfg nodeID with ⟨r, net', evs⟩
  cases r with
  | ok nd => exact (addNodeBody_ok _ _ _ _ _ _ _ h).2.2
  | error e => rw [addNodeBody_error_net _ _ _ _ _ _ _ h]

theorem AddNode_counter (net : LocalNetwork) (env : Env) (cfg : NodeConfig) :
    (AddNode net env cfg).2.1.nextIntNodeID = net.nextIntNodeID + 1 := by
  unfold AddNode
  split
  · exact addNodeBody_counter _ _ _ _
  · split
    · rfl
    · exact addNodeBody_counter _ _ _ _

theorem RemoveNode_counter (net : LocalNetwork) (env : Env) (name : String) :
    (RemoveNode net env name).2.1.nextIntNodeID = net.nextIntNodeID := by
  unfold RemoveNode
  repeat' split
  all_goals rfl

theorem AddNode_nameless_ok_id (net : LocalNetwork) (env : Env) (cfg : NodeConfig)
    (nd : LocalNode) (hname : cfg.name = "")
    (h : (AddNode net env cfg).1 = .ok nd) :
    nd.id = Nat.repr net.nextIntNodeID := by
  unfold AddNode at h
  simp only [hname, beq_self_eq_true, if_true] at h
  rcases hb : addNodeBody { net with nextIntNodeID := net.nextIntNodeID + 1 } env cfg
      (Nat.repr net.nextIntNodeID) with ⟨r, n2, e2⟩
  rw [hb] at h
  cases r with
  | error e => cases h
  | ok nd2 =>
    cases h
    exact (addNodeBody_ok _ _ _ _ _ _ _ hb).1

theorem runOps_add_ids (env : Env) :
    ∀ (ops : List Op) (net : LocalNetwork), NamelessAddsOnly ops →
      ∀ k nd, (runOps env net ops).2.get? k = some (.ok nd) →
        nd.id = Nat.repr (net.nextIntNodeID + k) := by
  intro ops
  induction ops with
  | nil =>
    intro net h k nd hk
    simp [runOps] at hk
  | cons op rest ih =>
    intro net h k nd hk
    have hrest : NamelessAddsOnly rest := fun o ho => h o (List.mem_cons_of_mem _ ho)
    cases op with
    | add cfg =>
      have hname : cfg.name = "" := h (.add cfg) (by simp)
      cases k with
      | zero =>
        simp only [runOps, List.get?] at hk
        have hok : (AddNode net env cfg).1 = .ok nd := by
          injection hk
        simpa using AddNode_nameless_ok_id net env cfg nd hname hok
      | succ k =>
        simp only [runOps, List.get?] at hk
        have := ih (AddNode net env cfg).2.1 hrest k nd hk
        rw [AddNode_counter] at this
        have harg : net.nextIntNodeID + 1 + k = net.nextIntNodeID + (k + 1) := by omega
        rwa [harg] at this
    | remove name =>
      simp only [runOps] at hk
      have := ih (RemoveNode net env name).2.1 hrest k nd hk
      rwa [RemoveNode_counter] at this

/-- Counterexample to claim C2: a successful `AddNode` of a nameless
config on a fresh manager assigns the name "1" (the decimal rendering of
the internal counter), which is not of the form `node<N>` — in particular
it is not "node1".  (The `node<N>` names come from the control server's
`newNetwork`, which writes explicit names into the configs before the
manager ever sees them.) -/
theorem AddNode_generated_name_counterexample :
    (AddNode wNet allOKEnv wCfg).1 = .ok ⟨"1"⟩ ∧ "1" ≠ "node1" :=
  ⟨rfl, by decide⟩

/-- Amended claim C2: for every sequence of operations against a fresh
manager in which every `AddNode` carries no explicit name (interleaved
arbitrarily with `RemoveNode`s), the name assigned to the `k`-th (0-based)
add that succeeds is the decimal numeral `"<k+1>"` — so the names of the
successful adds are numbered consecutively starting at 1 and are pairwise
distinct — but they are bare numerals, not of the form `node<N>`. -/
theorem runOps_names_amended (env : Env) (ops : List Op) (coreFlags : JObj)
    (genesis cchain : String) (binMap : List (Nat × String))
    (h : NamelessAddsOnly ops) :
    (∀ k nd,
      (runOps env (NewNetworkState coreFlags genesis cchain binMap) ops).2.get? k =
        some (.ok nd) → nd.id = Nat.repr (k + 1)) ∧
    (∀ j k ndj ndk,
      (runOps env (NewNetworkState coreFlags genesis cchain binMap) ops).2.get? j =
        some (.ok ndj) →
      (runOps env (NewNetworkState coreFlags genesis cchain binMap) ops).2.get? k =
        some (.ok ndk) →
      j ≠ k → ndj.id ≠ ndk.id) := by
  have hids := runOps_add_ids env ops
    (NewNetworkState coreFlags genesis cchain binMap) h
  have hone : ∀ k nd,
      (runOps env (NewNetworkState coreFlags genesis cchain binMap) ops).2.get? k =
        some (.ok nd) → nd.id = Nat.repr (k + 1) := by
    intro k nd hk
    have := hids k nd hk
    rw [show (NewNetworkState coreFlags genesis cchain binMap).nextIntNodeID = 1 from rfl]
      at this
    rwa [Nat.add_comm 1 k] at this
  refine ⟨hone, ?_⟩
  intro j k ndj ndk hj hk hne
  rw [hone j ndj hj, hone k ndk hk]
  intro hcon
  have := natRepr_injective hcon
  omega

/-- Witness for `runOps_names_amended`: two nameless adds on a fresh
manager. -/
theorem runOps_names_amended_witness :
    (∀ k nd,
      (runOps allOKEnv (NewNetworkState [] "GEN" "CCHAIN" [(0, "caminogo")])
        [Op.add wCfg, Op.add wCfg]).2.get? k = some (.ok nd) →
      nd.id = Nat.repr (k + 1)) ∧
    (∀ j k ndj ndk,
      (runOps allOKEnv (NewNetworkState [] "GEN" "CCHAIN" [(0, "caminogo")])
        [Op.add wCfg, Op.add wCfg]).2.get? j = some (.ok ndj) →
      (runOps allOKEnv (NewNetworkState [] "GEN" "CCHAIN" [(0, "caminogo")])
        [Op.add wCfg, Op.add wCfg]).2.get? k = some (.ok ndk) →
      j ≠ k → ndj.id ≠ ndk.id) :=
  runOps_names_amended allOKEnv [Op.add wCfg, Op.add wCfg] [] "GEN" "CCHAIN"
    [(0, "caminogo")]
    (by
      intro op hop
      simp only [List.mem_cons, List.not_mem_nil, or_false] at hop
      rcases hop with rfl | rfl
      · rfl
      · rfl)

end CNR
